import Mathlib

/-!
Shallow embedding of the query/response layer of the precious-metals API
(`src/app.py`): the SQLite tables become lists of rows, each endpoint handler
becomes a pure function on a database value, and Python exceptions become
`Except` errors.  Numeric columns are idealised as rationals; `date` columns
(ISO text in the store, compared lexicographically by SQLite, which on ISO
dates coincides with chronological order) are idealised as integers with the
same order.  The theorems below settle behavioural claims about the
weekly-data, raw-data and market-summary endpoints.
-/

deriving instance DecidableEq for Except

namespace PreciousMetals

/-- Uppercase one ASCII letter, as Python's `str.upper` does per character. -/
def upperChar (c : Char) : Char :=
  if 97 ≤ c.toNat ∧ c.toNat ≤ 122 then Char.ofNat (c.toNat - 32) else c

/-- Lowercase one ASCII letter, as Python's `str.lower` does per character. -/
def lowerChar (c : Char) : Char :=
  if 65 ≤ c.toNat ∧ c.toNat ≤ 90 then Char.ofNat (c.toNat + 32) else c

/-- Models Python's `s.upper()` on ASCII identifiers (app.py uses it only on
metal names). -/
def pyUpper (s : String) : String := String.mk (s.data.map upperChar)

/-- Models Python's `s.lower()` on ASCII identifiers (app.py uses it only on
metal names). -/
def pyLower (s : String) : String := String.mk (s.data.map lowerChar)

/-- Models Python's `s.endswith(suffix)` (app.py:200). -/
def strEndsWith (s suffix : String) : Bool := suffix.data.isSuffixOf s.data

/-- Decimal digit value of a character, `none` if not a digit. -/
def digitVal (c : Char) : Option ℕ :=
  if 48 ≤ c.toNat ∧ c.toNat ≤ 57 then some (c.toNat - 48) else none

/-- Read a non-empty all-digit character list as a natural number. -/
def digitsToNat : List Char → Option ℕ
  | [] => none
  | cs => go cs 0
where go : List Char → ℕ → Option ℕ
  | [], acc => some acc
  | c :: cs, acc =>
    match digitVal c with
    | some d => go cs (10 * acc + d)
    | none => none

/-- Models Python's `int(s)` on plain decimal numerals (optional leading
minus sign); `none` models the `ValueError` raised on non-numeric input. -/
def pyToInt (s : String) : Option ℤ :=
  match s.data with
  | [] => none
  | '-' :: rest => (digitsToNat rest).map (fun n => -(n : ℤ))
  | cs => (digitsToNat cs).map (fun n => (n : ℤ))

/-- Models Flask's `request.args.get(key, default, type=int)` (app.py:194-195):
a missing key yields the default, and a present value that fails `int()`
conversion is silently replaced by the default as well — no error is raised
and no response status changes. -/
def flaskArgGetInt (args : List (String × String)) (key : String) (dflt : ℤ) : ℤ :=
  match args.lookup key with
  | none => dflt
  | some v =>
    match pyToInt v with
    | some n => n
    | none => dflt

/-- Floor of a rational (the denominator is positive, so Euclidean division
of the numerator by it is floor division). -/
def ratFloor (x : ℚ) : ℤ := Int.ediv x.num x.den

/-- Round-half-to-even to an integer, the rounding Python's builtin `round`
uses; idealised over ℚ. -/
def roundHalfEven (x : ℚ) : ℤ :=
  let f := ratFloor x
  let r := x - (f : ℚ)
  if r < 1/2 then f
  else if 1/2 < r then f + 1
  else if f % 2 = 0 then f else f + 1

/-- Models Python's `round(x, 1)` (app.py:297, app.py:302), idealised over ℚ. -/
def pyRound1 (x : ℚ) : ℚ := (roundHalfEven (10 * x) : ℚ) / 10

/-- Insert an element into a list so that a list sorted by the boolean
relation `le` stays sorted. -/
def insertLe {α : Type} (le : α → α → Bool) (a : α) : List α → List α
  | [] => [a]
  | b :: bs => if le a b then a :: b :: bs else b :: insertLe le a bs

/-- Insertion sort: models a SQL `ORDER BY` clause over a table held as a
list of rows (SQLite leaves the relative order of ties unspecified, so any
sorted permutation is a faithful model of the result order). -/
def sortBy {α : Type} (le : α → α → Bool) : List α → List α
  | [] => []
  | a :: as => insertLe le a (sortBy le as)

/-- One row of `historical_prices` / `current_prices` (PriceRow). -/
structure PriceRow where
  metal : String
  cycle_name : String
  date : ℤ
  open_price : ℚ
  high_price : ℚ
  low_price : ℚ
  close_price : ℚ
  daily_change_pct : ℚ
  is_limit_up : Bool
  is_limit_down : Bool
  days_from_start : ℤ
  weeks_from_start : ℤ
  volume : ℚ
  deriving DecidableEq, Repr

/-- One row of `weekly_aggregates` (WeeklyAggregate); `week_over_week_pct`
is nullable in the dataset. -/
structure WeeklyRow where
  metal : String
  cycle_name : String
  weeks_from_start : ℤ
  week_start_date : ℤ
  close_price : ℚ
  cycle_change_pct : ℚ
  week_over_week_pct : Option ℚ
  limit_up_days : ℤ
  limit_down_days : ℤ
  volatility_indicator : String
  total_trading_days : ℤ
  deriving DecidableEq, Repr

/-- One row of `market_cycles` (MarketCycle); `start_price` is nullable. -/
structure MarketCycleRow where
  metal : String
  cycle_name : String
  start_price : Option ℚ
  deriving DecidableEq, Repr

/-- The read-only dataset store: the four tables, loaded once at startup. -/
structure DB where
  historical_prices : List PriceRow
  current_prices : List PriceRow
  weekly_aggregates : List WeeklyRow
  market_cycles : List MarketCycleRow
  deriving DecidableEq, Repr

/-- Models the `ORDER BY weeks_from_start` comparison for weekly rows. -/
def wleB (a b : WeeklyRow) : Bool := a.weeks_from_start ≤ b.weeks_from_start

/-- Models the `ORDER BY date DESC` comparison for price rows. -/
def dateDescB (a b : PriceRow) : Bool := b.date ≤ a.date

/-! ## Weekly-data endpoint (`get_weekly_data`, app.py:126-188) -/

/-- Models app.py:153, the week-over-week value guarded by truthiness:
Python sends both `NULL` and `0` to `0`, which coincides with defaulting
an absent value to `0`. -/
def wowOfRow (r : WeeklyRow) : ℚ :=
  match r.week_over_week_pct with
  | some v => if v = 0 then 0 else v
  | none => 0

/-- One element of the weekly-data `data` array (app.py:166-178). -/
structure WeeklyPoint where
  week : ℤ
  date : ℤ
  price : ℚ
  percentChange : ℚ
  weekOverWeekChange : ℚ
  limitUpDays : ℤ
  limitDownDays : ℤ
  tradingDays : ℤ
  dotColor : String
  volatilityLevel : String
  showDot : Bool
  deriving DecidableEq, Repr

/-- Build one weekly point from a weekly row: the volatility bucketing and
dot colouring of app.py:153-178. -/
def mkWeeklyPoint (r : WeeklyRow) : WeeklyPoint :=
  let wow_pct := wowOfRow r
  let abs_wow := |wow_pct|
  let dc_vl : String × String :=
    if abs_wow ≥ 5 then ("#ef4444", "high_volatility")
    else if abs_wow ≥ 2 then ("#eab308", "volatile")
    else ("#22c55e", "normal")
  { week := r.weeks_from_start
    date := r.week_start_date
    price := r.close_price
    percentChange := r.cycle_change_pct
    weekOverWeekChange := wow_pct
    limitUpDays := r.limit_up_days
    limitDownDays := r.limit_down_days
    tradingDays := r.total_trading_days
    dotColor := dc_vl.1
    volatilityLevel := dc_vl.2
    showDot := true }

/-- The JSON body returned by `get_weekly_data` (app.py:180-185). -/
structure WeeklyResponse where
  metal : String
  cycle : String
  data : List WeeklyPoint
  total_weeks : ℕ
  deriving DecidableEq, Repr

/-- The `weekly_aggregates` query of app.py:133-147:
`WHERE metal = ? AND cycle_name = ? ORDER BY weeks_from_start`, with the
metal parameter uppercased. -/
def weeklyQuery (db : DB) (metal cycle : String) : List WeeklyRow :=
  sortBy wleB
    (db.weekly_aggregates.filter
      (fun r => r.metal == pyUpper metal && r.cycle_name == cycle))

/-- The whole weekly-data handler (app.py:126-185).  The handler performs
only total reads, so its success path is a total function. -/
def getWeeklyData (db : DB) (metal cycle : String) : WeeklyResponse :=
  let data := (weeklyQuery db metal cycle).map mkWeeklyPoint
  { metal := pyUpper metal
    cycle := cycle
    data := data
    total_weeks := data.length }

/-! ## Raw-data endpoint (`get_raw_data`, app.py:190-234) -/

/-- The JSON body returned by `get_raw_data` (app.py:223-231). -/
structure RawResponse where
  metal : String
  cycle : String
  data : List PriceRow
  total_records : ℕ
  limit : ℤ
  offset : ℤ
  has_more : Bool
  deriving DecidableEq, Repr

/-- Table selection and row filter of app.py:200-205: a cycle ending in
`_current` reads `current_prices` filtered by the uppercased metal only;
any other cycle reads `historical_prices` filtered by the uppercased metal
and the cycle name. -/
def rawMatches (db : DB) (metal cycle : String) : List PriceRow :=
  if strEndsWith cycle "_current" then
    db.current_prices.filter (fun r => r.metal == pyUpper metal)
  else
    db.historical_prices.filter
      (fun r => r.metal == pyUpper metal && r.cycle_name == cycle)

/-- SQLite `LIMIT ? OFFSET ?` semantics: a negative offset behaves as 0
and a negative limit means no limit. -/
def sqlLimitOffset {α : Type} (limit offset : ℤ) (rows : List α) : List α :=
  let dropped := rows.drop offset.toNat
  if limit < 0 then dropped else dropped.take limit.toNat

/-- The raw-data handler after pagination parsing (app.py:197-231):
count the matching rows, then return the `ORDER BY date DESC` page. -/
def getRawDataCore (db : DB) (metal cycle : String) (limit offset : ℤ) :
    RawResponse :=
  let ms := rawMatches db metal cycle
  let total_records := ms.length
  let page := sqlLimitOffset limit offset (sortBy dateDescB ms)
  { metal := pyUpper metal
    cycle := cycle
    data := page
    total_records := total_records
    limit := limit
    offset := offset
    has_more := decide (offset + limit < (total_records : ℤ)) }

/-- The whole raw-data handler (app.py:190-231), including the Flask
query-parameter parsing of app.py:194-195. -/
def getRawData (db : DB) (metal cycle : String)
    (args : List (String × String)) : RawResponse :=
  getRawDataCore db metal cycle
    (flaskArgGetInt args "limit" 100)
    (flaskArgGetInt args "offset" 0)

/-! ## Market-summary endpoint (`get_market_summary`, app.py:236-312) -/

/-- One metal's entry in the market summary (app.py:295-304). -/
structure SummaryEntry where
  currentPrice : ℚ
  currentReturn : ℚ
  daysInCycle : ℤ
  weeksInCycle : ℤ
  lastUpdate : ℤ
  historicalPeak : Option ℚ
  historicalPeakReturn : ℚ
  limitUpDays : ℕ
  deriving DecidableEq, Repr

/-- Models `SELECT ... FROM current_prices WHERE metal = ? ORDER BY date
DESC LIMIT 1` (app.py:246-252). -/
def latestCurrent (db : DB) (metal : String) : Option PriceRow :=
  (sortBy dateDescB (db.current_prices.filter (fun r => r.metal == metal))).head?

/-- Models `SELECT start_price FROM market_cycles WHERE metal = ? AND
cycle_name = ?` with cycle the lowercased metal followed by
_2024_current (app.py:256-259); `fetchone` on an unordered table is
modelled as the first matching row. -/
def currentCycleInfo (db : DB) (metal : String) : Option MarketCycleRow :=
  (db.market_cycles.filter
    (fun r => r.metal == metal && r.cycle_name == pyLower metal ++ "_2024_current")).head?

/-- Models `SELECT MAX(close_price) FROM historical_prices WHERE metal =
? AND cycle_name = ?` with cycle the lowercased metal followed by
_1978_1980 (app.py:263-267); SQL `MAX` over an empty selection is
`NULL`. -/
def histPeak (db : DB) (metal : String) : Option ℚ :=
  ((db.historical_prices.filter
    (fun r => r.metal == metal && r.cycle_name == pyLower metal ++ "_1978_1980")).map
      (fun r => r.close_price)).max?

/-- Models `SELECT start_price FROM market_cycles WHERE metal = ? AND
cycle_name = ?` with cycle the lowercased metal followed by _1978_1980
(app.py:287-290). -/
def histCycleInfo (db : DB) (metal : String) : Option MarketCycleRow :=
  (db.market_cycles.filter
    (fun r => r.metal == metal && r.cycle_name == pyLower metal ++ "_1978_1980")).head?

/-- Models `SELECT COUNT(*) FROM current_prices WHERE metal = ? AND
is_limit_up = 1` (app.py:271-275). -/
def limitUpCount (db : DB) (metal : String) : ℕ :=
  (db.current_prices.filter (fun r => r.metal == metal && r.is_limit_up)).length

/-- The `hist_peak_return` computation of app.py:284-293, parameterised by
the fetched peak price and 1978-1980 cycle row: the return starts at 0 and
is recomputed only when the peak price is truthy (non-NULL, non-zero) and
the cycle row exists.  A NULL start price in that row raises a `TypeError`
and a zero one a `ZeroDivisionError`, both modelled as `Except.error`. -/
def histPeakReturnAux (peak : Option ℚ) (cyc : Option MarketCycleRow) :
    Except String ℚ :=
  match peak with
  | none => Except.ok 0
  | some p =>
    if p = 0 then Except.ok 0
    else
      match cyc with
      | none => Except.ok 0
      | some hr =>
        match hr.start_price with
        | none => Except.error "TypeError"
        | some hs =>
          if hs = 0 then Except.error "ZeroDivisionError"
          else Except.ok ((p - hs) / hs * 100)

/-- The `hist_peak_return` computation of app.py:284-293 applied to the
queries it draws from. -/
def histPeakReturnCalc (db : DB) (metal : String) : Except String ℚ :=
  histPeakReturnAux (histPeak db metal) (histCycleInfo db metal)

/-- The body of app.py:280-304 once the guard `if current_data and
cycle_info` has passed, parameterised by the fetched current-price row and
the (nullable) start price of the current cycle.  A NULL start price raises a
`TypeError` in `current_price - start_price` and a zero one a
`ZeroDivisionError`, both modelled as `Except.error`. -/
def processMetalAux (db : DB) (metal : String) (current_data : PriceRow)
    (sp : Option ℚ) : Except String (Option SummaryEntry) :=
  match sp with
  | none => Except.error "TypeError"
  | some start_price =>
    if start_price = 0 then Except.error "ZeroDivisionError"
    else
      let current_return := (current_data.close_price - start_price) / start_price * 100
      match histPeakReturnCalc db metal with
      | Except.error e => Except.error e
      | Except.ok hist_peak_return =>
        Except.ok (some
          { currentPrice := current_data.close_price
            currentReturn := pyRound1 current_return
            daysInCycle := current_data.days_from_start
            weeksInCycle := current_data.weeks_from_start
            lastUpdate := current_data.date
            historicalPeak := histPeak db metal
            historicalPeakReturn := pyRound1 hist_peak_return
            limitUpDays := limitUpCount db metal })

/-- One iteration of the metal loop of app.py:245-304: `Except.ok none`
means the metal is skipped (the guard `if current_data and cycle_info`
fails, app.py:279), `Except.error` models a Python exception escaping to
the handling clause of the endpoint. -/
def processMetal (db : DB) (metal : String) : Except String (Option SummaryEntry) :=
  match latestCurrent db metal, currentCycleInfo db metal with
  | some current_data, some cycle_info =>
    processMetalAux db metal current_data cycle_info.start_price
  | _, _ => Except.ok none

/-- The whole market-summary handler (app.py:236-309): the loop over
the two metals GOLD and SILVER unrolled, keying each produced entry by the
lowercased metal name; the first escaping exception aborts the request. -/
def getMarketSummary (db : DB) : Except String (List (String × SummaryEntry)) :=
  match processMetal db "GOLD" with
  | Except.error e => Except.error e
  | Except.ok g =>
    match processMetal db "SILVER" with
    | Except.error e => Except.error e
    | Except.ok s =>
      Except.ok
        ((match g with | some e => [(pyLower "GOLD", e)] | none => []) ++
         (match s with | some e => [(pyLower "SILVER", e)] | none => []))

/-! ## Concrete sample data used to instantiate the theorems -/

/-- A sample current-price row: GOLD closed at 125 on the latest day. -/
def gCur : PriceRow :=
  { metal := "GOLD", cycle_name := "gold_2024_current", date := 20250102
    open_price := 124, high_price := 126, low_price := 123, close_price := 125
    daily_change_pct := 1, is_limit_up := true, is_limit_down := false
    days_from_start := 10, weeks_from_start := 2, volume := 1000 }

/-- A sample historical row: the 1978-1980 GOLD peak, close 300. -/
def gHistPeakRow : PriceRow :=
  { metal := "GOLD", cycle_name := "gold_1978_1980", date := 19800101
    open_price := 290, high_price := 305, low_price := 285, close_price := 300
    daily_change_pct := 2, is_limit_up := false, is_limit_down := false
    days_from_start := 700, weeks_from_start := 100, volume := 500 }

/-- A second sample historical row, earlier and lower. -/
def gHistEarlyRow : PriceRow :=
  { metal := "GOLD", cycle_name := "gold_1978_1980", date := 19790101
    open_price := 195, high_price := 205, low_price := 190, close_price := 200
    daily_change_pct := 1, is_limit_up := false, is_limit_down := false
    days_from_start := 335, weeks_from_start := 47, volume := 400 }

/-- A sample weekly aggregate with week-over-week change exactly 2
(the `volatile` boundary). -/
def gWeekRow : WeeklyRow :=
  { metal := "GOLD", cycle_name := "cycA", weeks_from_start := 1
    week_start_date := 20240108, close_price := 110, cycle_change_pct := 10
    week_over_week_pct := some 2, limit_up_days := 1, limit_down_days := 0
    volatility_indicator := "normal", total_trading_days := 5 }

/-- The GOLD current-cycle definition with start price 100. -/
def gCurCycle : MarketCycleRow :=
  { metal := "GOLD", cycle_name := "gold_2024_current", start_price := some 100 }

/-- The GOLD 1978-1980 reference-cycle definition with start price 100. -/
def gHistCycle : MarketCycleRow :=
  { metal := "GOLD", cycle_name := "gold_1978_1980", start_price := some 100 }

/-- Sample dataset: one GOLD current row, two 1978-1980 historical rows,
one weekly aggregate, and start prices 100 for both GOLD cycles. -/
def exDb : DB :=
  { historical_prices := [gHistEarlyRow, gHistPeakRow]
    current_prices := [gCur]
    weekly_aggregates := [gWeekRow]
    market_cycles := [gCurCycle, gHistCycle] }

/-- The summary entry the sample dataset produces for GOLD: return
(125-100)/100*100 = 25, historical peak return (300-100)/100*100 = 200. -/
def gEntry : SummaryEntry :=
  { currentPrice := 125, currentReturn := 25, daysInCycle := 10
    weeksInCycle := 2, lastUpdate := 20250102, historicalPeak := some 300
    historicalPeakReturn := 200, limitUpDays := 1 }

/-- The empty dataset. -/
def emptyDb : DB :=
  { historical_prices := [], current_prices := []
    weekly_aggregates := [], market_cycles := [] }

/-! ## Sorting lemmas: `sortBy` returns a sorted permutation -/

theorem insertLe_perm {α : Type} (le : α → α → Bool) (a : α) :
    ∀ l : List α, List.Perm (insertLe le a l) (a :: l)
  | [] => List.Perm.refl _
  | b :: bs => by
    unfold insertLe
    by_cases h : le a b
    · simp [h]
    · simp only [h, Bool.false_eq_true, if_false]
      exact List.Perm.trans (List.Perm.cons b (insertLe_perm le a bs))
        (List.Perm.swap a b bs)

theorem sortBy_perm {α : Type} (le : α → α → Bool) :
    ∀ l : List α, List.Perm (sortBy le l) l
  | [] => List.Perm.refl _
  | a :: as =>
    List.Perm.trans (insertLe_perm le a (sortBy le as))
      (List.Perm.cons a (sortBy_perm le as))

theorem mem_sortBy {α : Type} (le : α → α → Bool) (l : List α) (x : α) :
    x ∈ sortBy le l ↔ x ∈ l :=
  (sortBy_perm le l).mem_iff

theorem insertLe_pairwise {α : Type} (le : α → α → Bool)
    (htot : ∀ x y, le x y = false → le y x = true)
    (htrans : ∀ x y z, le x y = true → le y z = true → le x z = true)
    (a : α) :
    ∀ l : List α, List.Pairwise (fun x y => le x y = true) l →
      List.Pairwise (fun x y => le x y = true) (insertLe le a l)
  | [], _ => List.Pairwise.cons (by simp) List.Pairwise.nil
  | b :: bs, h => by
    rcases List.pairwise_cons.mp h with ⟨hb, hbs⟩
    unfold insertLe
    by_cases hab : le a b
    · simp only [hab, if_true]
      refine List.pairwise_cons.mpr ⟨?_, h⟩
      intro y hy
      rcases List.mem_cons.mp hy with rfl | hy
      · exact hab
      · exact htrans a b y hab (hb y hy)
    · simp only [hab, Bool.false_eq_true, if_false]
      refine List.pairwise_cons.mpr ⟨?_, insertLe_pairwise le htot htrans a bs hbs⟩
      intro y hy
      rcases List.mem_cons.mp ((insertLe_perm le a bs).mem_iff.mp hy) with h' | hy
      · cases h'
        exact htot _ _ (Bool.eq_false_iff.mpr hab)
      · exact hb y hy

theorem sortBy_pairwise {α : Type} (le : α → α → Bool)
    (htot : ∀ x y, le x y = false → le y x = true)
    (htrans : ∀ x y z, le x y = true → le y z = true → le x z = true) :
    ∀ l : List α, List.Pairwise (fun x y => le x y = true) (sortBy le l)
  | [] => List.Pairwise.nil
  | a :: as =>
    insertLe_pairwise le htot htrans a (sortBy le as)
      (sortBy_pairwise le htot htrans as)

theorem wleB_total (a b : WeeklyRow) : wleB a b = false → wleB b a = true := by
  simp only [wleB, decide_eq_false_iff_not, decide_eq_true_eq]
  omega

theorem wleB_trans (a b c : WeeklyRow) :
    wleB a b = true → wleB b c = true → wleB a c = true := by
  simp only [wleB, decide_eq_true_eq]
  omega

theorem dateDescB_total (a b : PriceRow) :
    dateDescB a b = false → dateDescB b a = true := by
  simp only [dateDescB, decide_eq_false_iff_not, decide_eq_true_eq]
  omega

theorem dateDescB_trans (a b c : PriceRow) :
    dateDescB a b = true → dateDescB b c = true → dateDescB a c = true := by
  simp only [dateDescB, decide_eq_true_eq]
  omega

theorem sqlLimitOffset_sublist {α : Type} (limit offset : ℤ) (l : List α) :
    List.Sublist (sqlLimitOffset limit offset l) l := by
  unfold sqlLimitOffset
  by_cases h : limit < 0
  · simp only [h, if_true]
    exact List.drop_sublist _ _
  · simp only [h, if_false]
    exact List.Sublist.trans (List.take_sublist _ _) (List.drop_sublist _ _)

theorem rawData_pairwise (db : DB) (metal cycle : String) (limit offset : ℤ) :
    List.Pairwise (fun a b => b.date ≤ a.date)
      (getRawDataCore db metal cycle limit offset).data := by
  have hs := sortBy_pairwise dateDescB dateDescB_total dateDescB_trans
    (rawMatches db metal cycle)
  have hsub : List.Sublist (getRawDataCore db metal cycle limit offset).data
      (sortBy dateDescB (rawMatches db metal cycle)) :=
    sqlLimitOffset_sublist limit offset _
  exact (hs.sublist hsub).imp (fun h => by simpa [dateDescB] using h)

/-! ## Claim theorems -/

/-- C10: for every weekly-data response, `total_weeks` equals the length of
the `data` array (including 0 when empty), and the echoed `metal` field is
the uppercased input metal. -/
theorem weekly_response_invariants (db : DB) (metal cycle : String) :
    (getWeeklyData db metal cycle).total_weeks
        = (getWeeklyData db metal cycle).data.length ∧
    (getWeeklyData db metal cycle).metal = pyUpper metal :=
  ⟨rfl, rfl⟩

/-- C7: the weekly-data response consists exactly of the weekly-aggregate
rows whose metal is the uppercased metal parameter and whose cycle_name is
the cycle parameter, ordered ascending by `weeks_from_start`; when no rows
match, the result is the (successful) response with an empty data array. -/
theorem weekly_series_characterization (db : DB) (metal cycle : String) :
    (getWeeklyData db metal cycle).data
        = (weeklyQuery db metal cycle).map mkWeeklyPoint ∧
    List.Perm (weeklyQuery db metal cycle)
      (db.weekly_aggregates.filter
        (fun r => r.metal == pyUpper metal && r.cycle_name == cycle)) ∧
    (∀ r : WeeklyRow, r ∈ weeklyQuery db metal cycle ↔
        r ∈ db.weekly_aggregates ∧ r.metal = pyUpper metal ∧ r.cycle_name = cycle) ∧
    List.Pairwise (fun a b => a.weeks_from_start ≤ b.weeks_from_start)
      (weeklyQuery db metal cycle) ∧
    (db.weekly_aggregates.filter
        (fun r => r.metal == pyUpper metal && r.cycle_name == cycle) = [] →
      (getWeeklyData db metal cycle).data = []
        ∧ (getWeeklyData db metal cycle).total_weeks = 0) := by
  refine ⟨rfl, sortBy_perm _ _, ?_, ?_, ?_⟩
  · intro r
    simp [weeklyQuery, mem_sortBy, List.mem_filter, Bool.and_eq_true, beq_iff_eq,
      and_assoc]
  · exact (sortBy_pairwise wleB wleB_total wleB_trans _).imp
      (fun h => by simpa [wleB] using h)
  · intro h
    refine ⟨?_, ?_⟩
    · show (weeklyQuery db metal cycle).map mkWeeklyPoint = []
      simp [weeklyQuery, h, sortBy]
    · show ((weeklyQuery db metal cycle).map mkWeeklyPoint).length = 0
      simp [weeklyQuery, h, sortBy]

theorem mkWeeklyPoint_colorLevel (r : WeeklyRow) :
    ((mkWeeklyPoint r).dotColor, (mkWeeklyPoint r).volatilityLevel)
      = if |wowOfRow r| ≥ 5 then ("#ef4444", "high_volatility")
        else if |wowOfRow r| ≥ 2 then ("#eab308", "volatile")
        else ("#22c55e", "normal") := rfl

/-- C1: every returned weekly point's volatilityLevel and dotColor are the
three-tier function of the absolute week-over-week change (with a
null/absent `week_over_week_pct` treated as 0): at least 5 gives
high_volatility/red, at least 2 but below 5 gives volatile/amber, and
below 2 gives normal/green; the boundaries 2 and 5 land in the upper
buckets. -/
theorem volatility_classification (db : DB) (metal cycle : String)
    (p : WeeklyPoint) (hp : p ∈ (getWeeklyData db metal cycle).data) :
    (5 ≤ |p.weekOverWeekChange| →
        p.volatilityLevel = "high_volatility" ∧ p.dotColor = "#ef4444") ∧
    (2 ≤ |p.weekOverWeekChange| → |p.weekOverWeekChange| < 5 →
        p.volatilityLevel = "volatile" ∧ p.dotColor = "#eab308") ∧
    (|p.weekOverWeekChange| < 2 →
        p.volatilityLevel = "normal" ∧ p.dotColor = "#22c55e") ∧
    (∀ r : WeeklyRow, r.week_over_week_pct = none →
        (mkWeeklyPoint r).weekOverWeekChange = 0) := by
  have hdata : (getWeeklyData db metal cycle).data
      = (weeklyQuery db metal cycle).map mkWeeklyPoint := rfl
  rw [hdata] at hp
  rcases List.mem_map.mp hp with ⟨r, _hr, rfl⟩
  have hw : (mkWeeklyPoint r).weekOverWeekChange = wowOfRow r := rfl
  have hpair := mkWeeklyPoint_colorLevel r
  refine ⟨?_, ?_, ?_, fun r' h' => by show wowOfRow r' = 0; simp [wowOfRow, h']⟩
  · intro h5
    rw [hw] at h5
    rw [if_pos h5] at hpair
    exact ⟨congrArg Prod.snd hpair, congrArg Prod.fst hpair⟩
  · intro h2 h5
    rw [hw] at h2 h5
    rw [if_neg (not_le.mpr h5), if_pos h2] at hpair
    exact ⟨congrArg Prod.snd hpair, congrArg Prod.fst hpair⟩
  · intro h2
    rw [hw] at h2
    have h5 : ¬ (5:ℚ) ≤ |wowOfRow r| := fun h => absurd (lt_of_le_of_lt h h2) (by norm_num)
    rw [if_neg h5, if_neg (not_le.mpr h2)] at hpair
    exact ⟨congrArg Prod.snd hpair, congrArg Prod.fst hpair⟩

/-- C2: raw-data table selection is decided solely by the cycle suffix: a
cycle ending in `_current` reads the current-prices table filtered only by
the uppercased metal (any cycle filter is ignored), any other cycle reads
the historical-prices table filtered by the uppercased metal and the exact
cycle name; either way the returned rows are the date-descending order of
the selected rows with limit and offset applied. -/
theorem raw_table_selection (db : DB) (metal cycle : String) (limit offset : ℤ) :
    (strEndsWith cycle "_current" = true →
      (getRawDataCore db metal cycle limit offset).data
        = sqlLimitOffset limit offset (sortBy dateDescB
            (db.current_prices.filter (fun r => r.metal == pyUpper metal)))) ∧
    (strEndsWith cycle "_current" = false →
      (getRawDataCore db metal cycle limit offset).data
        = sqlLimitOffset limit offset (sortBy dateDescB
            (db.historical_prices.filter
              (fun r => r.metal == pyUpper metal && r.cycle_name == cycle)))) ∧
    List.Pairwise (fun a b => b.date ≤ a.date)
      (getRawDataCore db metal cycle limit offset).data := by
  refine ⟨?_, ?_, rawData_pairwise db metal cycle limit offset⟩
  · intro h
    show sqlLimitOffset limit offset (sortBy dateDescB (rawMatches db metal cycle)) = _
    rw [rawMatches, h]
    simp
  · intro h
    show sqlLimitOffset limit offset (sortBy dateDescB (rawMatches db metal cycle)) = _
    rw [rawMatches, h]
    simp

/-- C3: `has_more` is true exactly when `offset + limit` is below the total
number of rows matching the filter of the selected table, and `total_records`
reports that full matching count, not the page size. -/
theorem has_more_pagination (db : DB) (metal cycle : String) (limit offset : ℤ)
    (_hl : 0 ≤ limit) (_ho : 0 ≤ offset) :
    ((getRawDataCore db metal cycle limit offset).has_more = true ↔
      offset + limit < ((rawMatches db metal cycle).length : ℤ)) ∧
    (getRawDataCore db metal cycle limit offset).total_records
      = (rawMatches db metal cycle).length := by
  refine ⟨?_, rfl⟩
  show decide (offset + limit < ((rawMatches db metal cycle).length : ℤ)) = true ↔ _
  exact decide_eq_true_iff

/-- C4 (refuted by the code): the limit and offset query parameters do
default to 100 and 0 when absent, but invalid values are not rejected:
a non-integer value is silently replaced by the default (the whole
response is identical to the no-parameter one, with no client error), and
a negative value is accepted as-is. -/
theorem pagination_no_validation :
    (∀ db metal cycle, getRawData db metal cycle [("limit", "abc"), ("offset", "xyz")]
        = getRawData db metal cycle []) ∧
    flaskArgGetInt [("limit", "abc")] "limit" 100 = 100 ∧
    flaskArgGetInt [("offset", "-5")] "offset" 0 = -5 ∧
    flaskArgGetInt [] "limit" 100 = 100 ∧
    flaskArgGetInt [] "offset" 0 = 0 :=
  ⟨fun _ _ _ => rfl, rfl, rfl, rfl, rfl⟩

/-- C9: page 1 (offset 0, limit 50) and page 2 (offset 50, limit 50) of the
raw-data series are the first and second 50-element slices of the full
date-descending series: disjoint segments, each date-descending, whose
concatenation is a contiguous prefix of the full series. -/
theorem pagination_round_trip (db : DB) (metal cycle : String) :
    (getRawDataCore db metal cycle 50 0).data
        = (sortBy dateDescB (rawMatches db metal cycle)).take 50 ∧
    (getRawDataCore db metal cycle 50 50).data
        = ((sortBy dateDescB (rawMatches db metal cycle)).drop 50).take 50 ∧
    (getRawDataCore db metal cycle 50 0).data ++ (getRawDataCore db metal cycle 50 50).data
        = (sortBy dateDescB (rawMatches db metal cycle)).take 100 ∧
    ((getRawDataCore db metal cycle 50 0).data ++ (getRawDataCore db metal cycle 50 50).data)
        ++ (sortBy dateDescB (rawMatches db metal cycle)).drop 100
        = sortBy dateDescB (rawMatches db metal cycle) ∧
    List.Pairwise (fun a b => b.date ≤ a.date)
      (getRawDataCore db metal cycle 50 0).data ∧
    List.Pairwise (fun a b => b.date ≤ a.date)
      (getRawDataCore db metal cycle 50 50).data := by
  have h1 : (getRawDataCore db metal cycle 50 0).data
      = (sortBy dateDescB (rawMatches db metal cycle)).take 50 := rfl
  have h2 : (getRawDataCore db metal cycle 50 50).data
      = ((sortBy dateDescB (rawMatches db metal cycle)).drop 50).take 50 := rfl
  have h3 : (getRawDataCore db metal cycle 50 0).data
        ++ (getRawDataCore db metal cycle 50 50).data
      = (sortBy dateDescB (rawMatches db metal cycle)).take 100 := by
    rw [h1, h2, show (100:ℕ) = 50 + 50 from rfl, List.take_add]
  refine ⟨h1, h2, h3, ?_,
    rawData_pairwise db metal cycle 50 0, rawData_pairwise db metal cycle 50 50⟩
  rw [h3]
  exact List.take_append_drop 100 _

section
attribute [local semireducible] Rat.mul Rat.add Rat.sub Rat.inv

theorem pyRound1_zero : pyRound1 0 = 0 := by decide

end

/-- C5: when both the latest current-price row and the current-cycle row
are present, the currentReturn of any produced summary entry is
`(currentPrice - startPrice) / startPrice * 100` rounded to one decimal
place, and a zero or NULL start price makes the whole request error out
instead of silently reporting zero. -/
theorem current_return_formula (db : DB) (metal : String) (cd : PriceRow)
    (ci : MarketCycleRow) (hcd : latestCurrent db metal = some cd)
    (hci : currentCycleInfo db metal = some ci) :
    (∀ s e, ci.start_price = some s →
        processMetal db metal = Except.ok (some e) →
        e.currentReturn = pyRound1 ((cd.close_price - s) / s * 100)) ∧
    ((ci.start_price = some 0 ∨ ci.start_price = none) →
      ∃ err, processMetal db metal = Except.error err) := by
  have hpm : processMetal db metal = processMetalAux db metal cd ci.start_price := by
    unfold processMetal
    rw [hcd, hci]
  constructor
  · intro s e hs he
    rw [hpm, hs] at he
    simp only [processMetalAux] at he
    by_cases h0 : s = 0
    · rw [if_pos h0] at he
      exact absurd he (by simp)
    · rw [if_neg h0] at he
      cases hh : histPeakReturnCalc db metal with
      | error er =>
        rw [hh] at he
        exact absurd he (by simp)
      | ok v =>
        rw [hh] at he
        have h1 := Option.some.inj (Except.ok.inj he)
        rw [← h1]
  · intro h
    rcases h with h | h
    · rw [hpm, h]
      refine ⟨"ZeroDivisionError", ?_⟩
      simp [processMetalAux]
    · rw [hpm, h]
      exact ⟨"TypeError", rfl⟩

/-- C6: a metal lacking either a latest current-price row or a
current-cycle definition is skipped without error: its iteration yields
`ok none`, any successful summary has no entry keyed by the lowercased name of that
metal, and the request as a whole still succeeds whenever the iteration
for the other metal succeeds. -/
theorem summary_metal_omission (db : DB) (metal : String)
    (hm : metal = "GOLD" ∨ metal = "SILVER")
    (h : latestCurrent db metal = none ∨ currentCycleInfo db metal = none) :
    processMetal db metal = Except.ok none ∧
    (∀ l, getMarketSummary db = Except.ok l →
        ∀ e : SummaryEntry, (pyLower metal, e) ∉ l) ∧
    ((∃ r, processMetal db (if metal = "GOLD" then "SILVER" else "GOLD")
        = Except.ok r) →
      ∃ l, getMarketSummary db = Except.ok l) := by
  have hskip : processMetal db metal = Except.ok none := by
    unfold processMetal
    rcases h with h | h
    · rw [h]
    · rw [h]
      cases latestCurrent db metal <;> rfl
  refine ⟨hskip, ?_, ?_⟩
  · intro l hl e hmem
    unfold getMarketSummary at hl
    rcases hm with rfl | rfl
    · rw [hskip] at hl
      cases hsv : processMetal db "SILVER" with
      | error er =>
        rw [hsv] at hl
        simp at hl
      | ok s =>
        rw [hsv] at hl
        cases s with
        | none =>
          simp at hl
          subst hl
          simp at hmem
        | some e2 =>
          simp at hl
          subst hl
          simp at hmem
          exact absurd hmem.1 (by decide)
    · rw [hskip] at hl
      cases hg : processMetal db "GOLD" with
      | error er =>
        rw [hg] at hl
        simp at hl
      | ok g =>
        rw [hg] at hl
        cases g with
        | none =>
          simp at hl
          subst hl
          simp at hmem
        | some e2 =>
          simp at hl
          subst hl
          simp at hmem
          exact absurd hmem.1 (by decide)
  · intro hok
    obtain ⟨r, hr⟩ := hok
    unfold getMarketSummary
    rcases hm with rfl | rfl
    · rw [if_pos rfl] at hr
      rw [hskip, hr]
      exact ⟨_, rfl⟩
    · rw [if_neg (by decide)] at hr
      rw [hskip, hr]
      exact ⟨_, rfl⟩

/-- C8: any produced summary entry's historicalPeakReturn uses the same
percent-return formula on the peak close of the 1978-1980 reference cycle
and the start price of that same cycle, and defaults to 0 (without
erroring) when the peak price or the start-price row of that cycle is
unavailable. -/
theorem historical_peak_return (db : DB) (metal : String) (e : SummaryEntry)
    (hm : processMetal db metal = Except.ok (some e)) :
    (∀ p hr hs, histPeak db metal = some p → p ≠ 0 →
        histCycleInfo db metal = some hr → hr.start_price = some hs →
        e.historicalPeakReturn = pyRound1 ((p - hs) / hs * 100)) ∧
    ((histPeak db metal = none ∨ histCycleInfo db metal = none) →
      e.historicalPeakReturn = 0) := by
  have key : ∃ v, histPeakReturnCalc db metal = Except.ok v ∧
      e.historicalPeakReturn = pyRound1 v := by
    unfold processMetal at hm
    cases hcd : latestCurrent db metal with
    | none =>
      rw [hcd] at hm
      simp at hm
    | some cd =>
      rw [hcd] at hm
      cases hci : currentCycleInfo db metal with
      | none =>
        rw [hci] at hm
        simp at hm
      | some ci =>
        rw [hci] at hm
        have hm' : processMetalAux db metal cd ci.start_price
            = Except.ok (some e) := hm
        cases hsp : ci.start_price with
        | none =>
          rw [hsp] at hm'
          simp [processMetalAux] at hm'
        | some s =>
          rw [hsp] at hm'
          simp only [processMetalAux] at hm'
          by_cases h0 : s = 0
          · rw [if_pos h0] at hm'
            simp at hm'
          · rw [if_neg h0] at hm'
            cases hh : histPeakReturnCalc db metal with
            | error er =>
              rw [hh] at hm'
              simp at hm'
            | ok v =>
              rw [hh] at hm'
              have h1 := Option.some.inj (Except.ok.inj hm')
              exact ⟨v, rfl, by rw [← h1]⟩
  obtain ⟨v, hv, hret⟩ := key
  constructor
  · intro p hrr hs hp hpne hhr hhs
    unfold histPeakReturnCalc at hv
    rw [hp, hhr] at hv
    simp only [histPeakReturnAux] at hv
    rw [if_neg hpne, hhs] at hv
    simp only [] at hv
    by_cases hs0 : hs = 0
    · rw [if_pos hs0] at hv
      simp at hv
    · rw [if_neg hs0] at hv
      rw [hret, ← Except.ok.inj hv]
  · intro hcase
    rcases hcase with hp | hc
    · unfold histPeakReturnCalc at hv
      rw [hp] at hv
      simp only [histPeakReturnAux] at hv
      rw [hret, ← Except.ok.inj hv, pyRound1_zero]
    · unfold histPeakReturnCalc at hv
      rw [hc] at hv
      cases hp2 : histPeak db metal with
      | none =>
        rw [hp2] at hv
        simp only [histPeakReturnAux] at hv
        rw [hret, ← Except.ok.inj hv, pyRound1_zero]
      | some p =>
        rw [hp2] at hv
        simp only [histPeakReturnAux] at hv
        rw [ite_self] at hv
        rw [hret, ← Except.ok.inj hv, pyRound1_zero]

/-! ## Witnesses: the theorems above instantiated on the sample dataset -/

section
attribute [local semireducible] Rat.mul Rat.add Rat.sub Rat.inv

/-- Witness for C1 on the sample dataset: the returned point with
week-over-week change exactly 2 is classified volatile/amber. -/
theorem volatility_classification_witness :
    mkWeeklyPoint gWeekRow ∈ (getWeeklyData exDb "gold" "cycA").data ∧
    (2 ≤ |(mkWeeklyPoint gWeekRow).weekOverWeekChange| ∧
      |(mkWeeklyPoint gWeekRow).weekOverWeekChange| < 5) ∧
    ((mkWeeklyPoint gWeekRow).volatilityLevel = "volatile" ∧
      (mkWeeklyPoint gWeekRow).dotColor = "#eab308") := by
  have hmem : mkWeeklyPoint gWeekRow ∈ (getWeeklyData exDb "gold" "cycA").data := by
    decide
  exact ⟨hmem, ⟨by decide, by decide⟩,
    (volatility_classification exDb "gold" "cycA" _ hmem).2.1 (by decide) (by decide)⟩

/-- Witness for C2 on the sample dataset: one cycle with the `_current`
suffix, one without. -/
theorem raw_table_selection_witness :
    (strEndsWith "gold_2024_current" "_current" = true ∧
      (getRawDataCore exDb "gold" "gold_2024_current" 100 0).data
        = sqlLimitOffset 100 0 (sortBy dateDescB
            (exDb.current_prices.filter (fun r => r.metal == pyUpper "gold")))) ∧
    (strEndsWith "gold_1978_1980" "_current" = false ∧
      (getRawDataCore exDb "gold" "gold_1978_1980" 100 0).data
        = sqlLimitOffset 100 0 (sortBy dateDescB
            (exDb.historical_prices.filter
              (fun r => r.metal == pyUpper "gold" && r.cycle_name == "gold_1978_1980")))) :=
  ⟨⟨by decide, (raw_table_selection exDb "gold" "gold_2024_current" 100 0).1 (by decide)⟩,
   ⟨by decide, (raw_table_selection exDb "gold" "gold_1978_1980" 100 0).2.1 (by decide)⟩⟩

/-- Witness for C3 on the sample dataset: limit 1, offset 0 against 2
matching rows, so `has_more` is settled by `0 + 1 < 2`. -/
theorem has_more_pagination_witness :
    ((0:ℤ) ≤ 1 ∧ (0:ℤ) ≤ 0) ∧
    (((getRawDataCore exDb "gold" "gold_1978_1980" 1 0).has_more = true ↔
        (0:ℤ) + 1 < ((rawMatches exDb "gold" "gold_1978_1980").length : ℤ)) ∧
      (getRawDataCore exDb "gold" "gold_1978_1980" 1 0).total_records
        = (rawMatches exDb "gold" "gold_1978_1980").length) :=
  ⟨⟨by decide, by decide⟩,
    has_more_pagination exDb "gold" "gold_1978_1980" 1 0 (by decide) (by decide)⟩

/-- Witness for C5 on the sample dataset: start price 100 and current
price 125 give a currentReturn of exactly 25.0. -/
theorem current_return_formula_witness :
    (latestCurrent exDb "GOLD" = some gCur ∧
      currentCycleInfo exDb "GOLD" = some gCurCycle) ∧
    (∃ e, processMetal exDb "GOLD" = Except.ok (some e) ∧ e.currentReturn = 25) := by
  have hcd : latestCurrent exDb "GOLD" = some gCur := by decide
  have hci : currentCycleInfo exDb "GOLD" = some gCurCycle := by decide
  have hpm : processMetal exDb "GOLD" = Except.ok (some gEntry) := by decide
  have hform := (current_return_formula exDb "GOLD" gCur gCurCycle hcd hci).1
    100 gEntry (by decide) hpm
  exact ⟨⟨hcd, hci⟩, gEntry, hpm, hform.trans (by decide)⟩

/-- Witness for C6 on the empty dataset: GOLD has no current-price row, so
it is skipped and the summary is empty yet successful. -/
theorem summary_metal_omission_witness :
    latestCurrent emptyDb "GOLD" = none ∧
    (processMetal emptyDb "GOLD" = Except.ok none ∧
      (∀ l, getMarketSummary emptyDb = Except.ok l →
          ∀ e : SummaryEntry, (pyLower "GOLD", e) ∉ l) ∧
      ((∃ r, processMetal emptyDb (if "GOLD" = "GOLD" then "SILVER" else "GOLD")
          = Except.ok r) →
        ∃ l, getMarketSummary emptyDb = Except.ok l)) :=
  ⟨rfl, summary_metal_omission emptyDb "GOLD" (Or.inl rfl) (Or.inl rfl)⟩

/-- Witness for C7 on the empty dataset: no rows match, and the response
is the successful empty one. -/
theorem weekly_series_characterization_witness :
    (emptyDb.weekly_aggregates.filter
        (fun r => r.metal == pyUpper "gold" && r.cycle_name == "cycA") = []) ∧
    ((getWeeklyData emptyDb "gold" "cycA").data = []
      ∧ (getWeeklyData emptyDb "gold" "cycA").total_weeks = 0) :=
  ⟨rfl, (weekly_series_characterization emptyDb "gold" "cycA").2.2.2.2 rfl⟩

/-- Witness for C8 on the sample dataset: peak 300 against start price 100
gives a historicalPeakReturn of exactly 200. -/
theorem historical_peak_return_witness :
    processMetal exDb "GOLD" = Except.ok (some gEntry) ∧
    histPeak exDb "GOLD" = some 300 ∧
    histCycleInfo exDb "GOLD" = some gHistCycle ∧
    gEntry.historicalPeakReturn = pyRound1 ((300 - 100) / 100 * 100) ∧
    gEntry.historicalPeakReturn = 200 := by
  have hpm : processMetal exDb "GOLD" = Except.ok (some gEntry) := by decide
  have h1 := (historical_peak_return exDb "GOLD" gEntry hpm).1
    300 gHistCycle 100 (by decide) (by decide) (by decide) (by decide)
  exact ⟨hpm, by decide, by decide, h1, h1.trans (by decide)⟩

end

end PreciousMetals
